import Mathlib

/-!
Shallow embedding, in Lean 4, of the ingestion/normalization pipeline of the
Judment-analysis repository (src/database.py and src/main.py), together with
theorems settling the frozen claims about it.

Strings are modelled as `List Char` (ASCII inputs); Python `None`-or-string
values as `Option (List Char)`; Python dicts as insertion-ordered association
lists with overwrite-in-place semantics.  Each Python regex used by the code
is compiled by hand into a deterministic character scanner that follows the
backtracking behaviour of the original pattern on the relevant inputs; the
derivation is documented next to each scanner.
-/

set_option maxRecDepth 20000

/-- Strings are lists of characters. -/
abbrev Str := List Char

/-- Turn a Lean string literal into the `Str` model. -/
def strL (s : String) : Str := s.data

/-- ASCII lower-casing of one character (Python `str.lower` on ASCII input). -/
def lowerChar (c : Char) : Char :=
  if 'A' ≤ c ∧ c ≤ 'Z' then Char.ofNat (c.toNat + 32) else c

/-- ASCII upper-casing of one character (Python `str.upper` on ASCII input). -/
def upperChar (c : Char) : Char :=
  if 'a' ≤ c ∧ c ≤ 'z' then Char.ofNat (c.toNat - 32) else c

/-- Lower-case a string character by character. -/
def toLowerL (s : Str) : Str := s.map lowerChar

/-- Upper-case a string character by character. -/
def toUpperL (s : Str) : Str := s.map upperChar

/-- Python whitespace (`str.strip` default set, ASCII part; also regex `\s`). -/
def isWs (c : Char) : Bool :=
  c = ' ' ∨ c = '\t' ∨ c = '\n' ∨ c = '\r' ∨ c = '\x0b' ∨ c = '\x0c'

/-- ASCII decimal digit (regex `\d`). -/
def isDigitC (c : Char) : Bool := '0' ≤ c ∧ c ≤ '9'

/-- ASCII letter. -/
def isAlphaC (c : Char) : Bool := ('a' ≤ c ∧ c ≤ 'z') ∨ ('A' ≤ c ∧ c ≤ 'Z')

/-- Regex `\w` word character (ASCII part). -/
def isWordC (c : Char) : Bool := isAlphaC c ∨ isDigitC c ∨ c = '_'

/-- Python `str.strip()`: drop whitespace from both ends. -/
def pyStrip (s : Str) : Str :=
  ((s.dropWhile isWs).reverse.dropWhile isWs).reverse

/-- Strip a fixed character from both ends (Python `str.strip("|")` etc.). -/
def stripChar (c : Char) (s : Str) : Str :=
  ((s.dropWhile (· = c)).reverse.dropWhile (· = c)).reverse

/-- Python `str.rstrip(",.")`: drop trailing characters from the given set. -/
def rstripCommaDot (s : Str) : Str :=
  (s.reverse.dropWhile (fun c => c = ',' ∨ c = '.')).reverse

/-- `pat` occurs as a contiguous substring of `s` (Python `pat in s`). -/
def containsSub (pat : Str) : Str → Bool
  | [] => pat.isEmpty
  | c :: cs => pat.isPrefixOf (c :: cs) || containsSub pat cs

/-- Case-insensitive prefix match; on success returns the remainder of `s`. -/
def matchCI : Str → Str → Option Str
  | [], s => some s
  | _ :: _, [] => none
  | p :: ps, c :: cs => if lowerChar c = lowerChar p then matchCI ps cs else none

/-- Case-sensitive prefix match; on success returns the remainder of `s`. -/
def matchCS : Str → Str → Option Str
  | [], s => some s
  | _ :: _, [] => none
  | p :: ps, c :: cs => if c = p then matchCS ps cs else none

/-- Python `str.replace(pat, repl)` for a nonempty `pat`: replace every
non-overlapping occurrence, scanning left to right.  Fuelled by the input
length (each step consumes at least one character). -/
def replaceAllGo (pat repl : Str) : Nat → Str → Str
  | _, [] => []
  | 0, s => s
  | fuel + 1, c :: cs =>
      if pat.isPrefixOf (c :: cs) then
        repl ++ replaceAllGo pat repl fuel ((c :: cs).drop pat.length)
      else
        c :: replaceAllGo pat repl fuel cs

/-- Python `str.replace(pat, repl)` (with nonempty `pat`). -/
def replaceAll (pat repl s : Str) : Str := replaceAllGo pat repl s.length s

/-- Split on a separator character; Python `str.split(sep)` semantics
(`"".split(sep) = [""]`, separators at the ends yield empty pieces). -/
def splitOnC (sep : Char) : Str → List Str
  | [] => [[]]
  | c :: cs =>
      let r := splitOnC sep cs
      if c = sep then [] :: r
      else
        match r with
        | [] => [[c]]
        | h :: t => (c :: h) :: t

/-- Python `str.title()` on ASCII: upper-case every letter that follows a
non-letter, lower-case every other letter. -/
def titleGo : Bool → Str → Str
  | _, [] => []
  | prevAlpha, c :: cs =>
      let c' := if isAlphaC c then (if prevAlpha then lowerChar c else upperChar c) else c
      c' :: titleGo (isAlphaC c) cs

/-- Python `str.title()` (ASCII). -/
def titleL (s : Str) : Str := titleGo false s

/-- Parse a run of decimal digits as a number (Python `int` of the digits). -/
def digitsToNat (s : Str) : Nat :=
  s.foldl (fun acc c => acc * 10 + (c.toNat - '0'.toNat)) 0

-- ======================================================================
-- District canonicalizer: src/database.py, normalize_district (lines 226-338)
-- ======================================================================

/-- Alias substrings that `normalize_district` merges into "Ranga Reddy". -/
def rrAliases : List Str :=
  [strL "ranga", strL "r.r", strL "rr", strL "r r", strL "r. r", strL "cyberabad",
   strL "raidurgam", strL "maheshwar", strL "l.b", strL "rajendranagar",
   strL "ibrahimpatnam", strL "alkapoor", strL "serilingampally"]

/-- Placeholder phrases mapped to "Unknown" by `normalize_district`. -/
def districtPlaceholders : List Str :=
  [strL "not mentioned", strL "not specified", strL "unknown", strL "[]",
   strL "[district]", strL "not provided", strL "not specified in the provided text"]

/-- `normalize_district` from src/database.py.  The argument and result are
`Option Str`: Python passes through strings or `None`, and the function
returns `None` (here `none`) as the exclusion signal for Lucknow. -/
def normalize_district : Option Str → Option Str
  | none => some (strL "Unknown")
  | some s =>
    if s = [] then some (strL "Unknown")
    else
      let d := toLowerL (pyStrip s)
      if rrAliases.any (fun a => containsSub a d) then some (strL "Ranga Reddy")
      else if containsSub (strL "lucknow") d then none
      else if containsSub (strL "nalgonda") d || containsSub (strL "miryalaguda") d ||
              containsSub (strL "yadadri") d || containsSub (strL "bhongir") d then
        some (strL "Nalgonda")
      else if containsSub (strL "mahabubnagar") d || containsSub (strL "nagarkurnool") d ||
              containsSub (strL "wanaparthy") d || containsSub (strL "jogulamba") d ||
              containsSub (strL "gadwal") d then
        some (strL "Mahabubnagar")
      else if containsSub (strL "nizamabad") d || containsSub (strL "pali") d ||
              containsSub (strL "ramareddy") d || containsSub (strL "dichpally") d ||
              containsSub (strL "kamareddy") d || containsSub (strL "yellareddy") d then
        some (strL "Nizamabad")
      else if containsSub (strL "adilabad") d then some (strL "Adilabad")
      else if containsSub (strL "karimnagar") d then some (strL "Karimnagar")
      else if containsSub (strL "khammam") d || containsSub (strL "bhadradri") d then
        some (strL "Khammam")
      else if containsSub (strL "warangal") d || containsSub (strL "hanamkonda") d then
        some (strL "Warangal")
      else if containsSub (strL "sangareddy") d then some (strL "Sangareddy")
      else if containsSub (strL "siddipet") d then some (strL "Siddipet")
      else if containsSub (strL "medak") d then some (strL "Medak")
      else if containsSub (strL "hyderabad") d || containsSub (strL "secunderabad") d then
        some (strL "Hyderabad")
      else if containsSub (strL "medchal") d || containsSub (strL "malkajgiri") d ||
              containsSub (strL "kukatpally") d then
        some (strL "Medchal-Malkajgiri")
      else if containsSub (strL "vikarabad") d then some (strL "Vikarabad")
      else
        let clean := pyStrip (replaceAll (strL ".") []
          (replaceAll (strL "dist") [] (replaceAll (strL "district") [] d)))
        if clean = strL "r r" then some (strL "Ranga Reddy")
        else if clean = [] || districtPlaceholders.contains clean then some (strL "Unknown")
        else some (titleL clean)

-- ======================================================================
-- Outcome classifier: src/main.py, extract_outcome_from_filename (664-686)
-- ======================================================================

/-- Conviction keywords searched in the lower-cased legal summary. -/
def convictionKws : List Str :=
  [strL "found guilty", strL "convicted", strL "guilty of all charges", strL "conviction"]

/-- Acquittal keywords searched in the lower-cased legal summary. -/
def acquittalKws : List Str := [strL "acquitted", strL "acquittal", strL "not guilty"]

/-- `extract_outcome_from_filename` from src/main.py. -/
def extract_outcome_from_filename (filename legal_summary : Str) : Str :=
  let upper := toUpperL filename
  if (strL "ACQUITTED").isPrefixOf upper then strL "Acquitted"
  else if (strL "CONVICTED").isPrefixOf upper || (strL "CONVICTION").isPrefixOf upper then
    strL "Convicted"
  else if legal_summary ≠ [] then
    let lower := toLowerL legal_summary
    if convictionKws.any (fun kw => containsSub kw lower) then strL "Convicted"
    else if acquittalKws.any (fun kw => containsSub kw lower) then strL "Acquitted"
    else strL "Unknown"
  else strL "Unknown"

-- ======================================================================
-- Character-level lemmas used to transfer claim hypotheses through the
-- lower-casing and stripping the source performs.
-- ======================================================================

theorem toNat_ofNat_valid (n : Nat) (h : n < 55296) : (Char.ofNat n).toNat = n := by
  have hv : n.isValidChar := Or.inl h
  simp [Char.ofNat, hv, Char.ofNatAux, Char.toNat, UInt32.toNat]

theorem char_toNat_le_of_le {a b : Char} (h : a ≤ b) : a.toNat ≤ b.toNat := by
  rw [Char.le_def] at h; exact h

theorem isWs_toNat {d : Char} (h : isWs d = true) : d.toNat ≤ 32 := by
  simp only [isWs, Bool.or_eq_true, decide_eq_true_eq] at h
  rcases h with rfl | rfl | rfl | rfl | rfl | rfl <;> decide

/-- Lower-casing never turns whitespace into non-whitespace or conversely. -/
theorem isWs_lowerChar (c : Char) : isWs (lowerChar c) = isWs c := by
  unfold lowerChar
  by_cases h : 'A' ≤ c ∧ c ≤ 'Z'
  · rw [if_pos h]
    have h1 : 65 ≤ c.toNat := by
      simpa [show ('A' : Char).toNat = 65 from rfl] using char_toNat_le_of_le h.1
    have h2 : c.toNat ≤ 90 := by
      simpa [show ('Z' : Char).toNat = 90 from rfl] using char_toNat_le_of_le h.2
    have ht : (Char.ofNat (c.toNat + 32)).toNat = c.toNat + 32 :=
      toNat_ofNat_valid _ (by omega)
    have l : isWs (Char.ofNat (c.toNat + 32)) = false := by
      cases hw : isWs (Char.ofNat (c.toNat + 32))
      · rfl
      · have := isWs_toNat hw; rw [ht] at this; omega
    have r : isWs c = false := by
      cases hw : isWs c
      · rfl
      · have := isWs_toNat hw; omega
    rw [l, r]
  · rw [if_neg h]

theorem map_dropWhile_comm (s : Str) :
    (s.map lowerChar).dropWhile isWs = (s.dropWhile isWs).map lowerChar := by
  rw [List.dropWhile_map]
  rw [show isWs ∘ lowerChar = isWs from funext fun c => isWs_lowerChar c]

/-- Python lower-casing commutes with Python stripping. -/
theorem toLowerL_pyStrip (s : Str) : toLowerL (pyStrip s) = pyStrip (toLowerL s) := by
  unfold toLowerL pyStrip
  rw [List.map_reverse, ← map_dropWhile_comm, List.map_reverse, ← map_dropWhile_comm]

/-- `containsSub` is exactly the contiguous-substring (infix) relation. -/
theorem containsSub_correct (pat s : Str) :
    containsSub pat s = true ↔ pat <:+: s := by
  induction s with
  | nil => simp [containsSub, List.isEmpty_iff, List.infix_nil]
  | cons c cs ih =>
    simp [containsSub, List.infix_cons_iff, ih, List.isPrefixOf_iff_prefix]

/-- A whitespace-free nonempty substring survives `dropWhile isWs`. -/
theorem infix_dropWhile_ws {pat s : Str} (hne : pat ≠ [])
    (hws : ∀ c ∈ pat, isWs c = false) (h : pat <:+: s) :
    pat <:+: s.dropWhile isWs := by
  induction s with
  | nil => simpa using h
  | cons c cs ih =>
    by_cases hc : isWs c
    · rw [List.dropWhile_cons_of_pos (by simpa using hc)]
      rcases List.infix_cons_iff.mp h with hpre | hinf
      · exfalso
        cases pat with
        | nil => exact hne rfl
        | cons p ps =>
          obtain ⟨t, ht⟩ := hpre
          have hpc : p = c := by
            have := congrArg (List.headD · ' ') ht
            simpa using this
          have hp : isWs p = false := hws p (by simp)
          rw [hpc, hc] at hp
          simp at hp
      · exact ih hinf
    · rwa [List.dropWhile_cons_of_neg (by simpa using hc)]

/-- A whitespace-free nonempty substring of the lower-cased input also occurs
in the lower-cased, stripped input (the string `normalize_district` tests). -/
theorem containsSub_pyStrip_lower {pat s : Str} (hne : pat ≠ [])
    (hws : ∀ c ∈ pat, isWs c = false)
    (h : containsSub pat (toLowerL s) = true) :
    containsSub pat (toLowerL (pyStrip s)) = true := by
  rw [toLowerL_pyStrip]
  rw [containsSub_correct] at h ⊢
  unfold pyStrip
  have h1 : pat <:+: (toLowerL s).dropWhile isWs := infix_dropWhile_ws hne hws h
  have h2 : pat.reverse <:+: ((toLowerL s).dropWhile isWs).reverse :=
    List.reverse_infix.mpr h1
  have h3 : pat.reverse <:+: (((toLowerL s).dropWhile isWs).reverse).dropWhile isWs :=
    infix_dropWhile_ws (by simpa using hne)
      (by intro c hc; exact hws c (List.mem_reverse.mp hc)) h2
  have h4 := List.reverse_infix.mpr h3
  simpa using h4

-- ======================================================================
-- Claims C4, C5 (district canonicalizer) and C10 (outcome classifier)
-- ======================================================================

/-- C4 counterexample.  The claim says every input containing "lucknow" (any
case) yields the exclusion signal; but the Ranga Reddy alias rules run first,
so an input containing both "rr" and "lucknow" is merged into "Ranga Reddy"
instead of being excluded. -/
theorem C4_counterexample :
    containsSub (strL "lucknow") (toLowerL (strL "rr lucknow")) = true ∧
    normalize_district (some (strL "rr lucknow")) = some (strL "Ranga Reddy") := by
  decide

/-- C4 (amended): every input string containing "lucknow" in any letter case
and containing no Ranga Reddy alias substring yields the exclusion signal
(`none`), which is distinct from "Unknown". -/
theorem C4_lucknow_exclusion (s : Str)
    (hl : containsSub (strL "lucknow") (toLowerL s) = true)
    (hrr : ∀ a ∈ rrAliases, containsSub a (toLowerL (pyStrip s)) = false) :
    normalize_district (some s) = none ∧
    normalize_district (some s) ≠ some (strL "Unknown") := by
  have hs : s ≠ [] := by
    rintro rfl
    exact absurd hl (by decide)
  have hl' : containsSub (strL "lucknow") (toLowerL (pyStrip s)) = true :=
    containsSub_pyStrip_lower (by decide) (by decide) hl
  have hany : rrAliases.any (fun a => containsSub a (toLowerL (pyStrip s))) = false := by
    rw [List.any_eq_false]
    intro a ha
    rw [hrr a ha]
    simp
  have hmain : normalize_district (some s) = none := by
    simp only [normalize_district, if_neg hs, hany, hl']
    simp
  exact ⟨hmain, by rw [hmain]; simp⟩

/-- C4 witness: "Lucknow" itself is excluded and not "Unknown". -/
theorem C4_witness :
    normalize_district (some (strL "Lucknow")) = none ∧
    normalize_district (some (strL "Lucknow")) ≠ some (strL "Unknown") :=
  C4_lucknow_exclusion (strL "Lucknow") (by decide) (by decide)

/-- Canonical district values on which `normalize_district` is a fixpoint:
the fixed canonical names except "Warangal" (which contains the alias
substring "ranga" and is re-normalized to "Ranga Reddy"), plus "Unknown". -/
def stableDistricts : List (Option Str) :=
  [some (strL "Ranga Reddy"), some (strL "Nalgonda"), some (strL "Mahabubnagar"),
   some (strL "Nizamabad"), some (strL "Adilabad"), some (strL "Karimnagar"),
   some (strL "Khammam"), some (strL "Sangareddy"), some (strL "Siddipet"),
   some (strL "Medak"), some (strL "Hyderabad"), some (strL "Medchal-Malkajgiri"),
   some (strL "Vikarabad"), some (strL "Unknown")]

/-- C5 counterexample.  District canonicalization is not idempotent: "Lucknow"
normalizes to the exclusion signal, which re-normalizes to "Unknown"; and
"Hanamkonda" normalizes to "Warangal", which re-normalizes to "Ranga Reddy"
because "warangal" contains the alias substring "ranga". -/
theorem C5_counterexample :
    normalize_district (normalize_district (some (strL "Lucknow"))) ≠
      normalize_district (some (strL "Lucknow")) ∧
    normalize_district (normalize_district (some (strL "Hanamkonda"))) ≠
      normalize_district (some (strL "Hanamkonda")) := by
  decide

/-- C5 (amended): canonicalization is idempotent on every input whose result
is one of the stable canonical outputs (all fixed names except "Warangal",
plus "Unknown"), and each Ranga Reddy alias among "Cyberabad", "L.B Nagar"
and "Serilingampally" maps to exactly "Ranga Reddy". -/
theorem C5_idempotent_on_stable :
    (∀ s : Str, normalize_district (some s) ∈ stableDistricts →
      normalize_district (normalize_district (some s)) = normalize_district (some s)) ∧
    normalize_district (some (strL "Cyberabad")) = some (strL "Ranga Reddy") ∧
    normalize_district (some (strL "L.B Nagar")) = some (strL "Ranga Reddy") ∧
    normalize_district (some (strL "Serilingampally")) = some (strL "Ranga Reddy") := by
  refine ⟨?_, by decide, by decide, by decide⟩
  intro s hmem
  simp only [stableDistricts, List.mem_cons, List.not_mem_nil, or_false] at hmem
  rcases hmem with h | h | h | h | h | h | h | h | h | h | h | h | h | h <;>
    rw [h] <;> decide

/-- C5 witness: idempotence at the concrete input "Nalgonda". -/
theorem C5_witness :
    normalize_district (normalize_district (some (strL "Nalgonda"))) =
      normalize_district (some (strL "Nalgonda")) :=
  C5_idempotent_on_stable.1 (strL "Nalgonda") (by decide)

/-- C10: in the narrative fallback of the outcome classifier, conviction
keywords are tested before acquittal keywords, so a summary containing both
a conviction phrase and an acquittal phrase classifies as "Convicted"
(when the filename carries no ACQUITTED/CONVICTED/CONVICTION prefix). -/
theorem C10_conviction_checked_first (fn ls : Str)
    (hacq : (strL "ACQUITTED").isPrefixOf (toUpperL fn) = false)
    (hcv1 : (strL "CONVICTED").isPrefixOf (toUpperL fn) = false)
    (hcv2 : (strL "CONVICTION").isPrefixOf (toUpperL fn) = false)
    (hc : ∃ kw ∈ convictionKws, containsSub kw (toLowerL ls) = true)
    (ha : ∃ kw ∈ acquittalKws, containsSub kw (toLowerL ls) = true) :
    extract_outcome_from_filename fn ls = strL "Convicted" := by
  have hne : ls ≠ [] := by
    rintro rfl
    rcases hc with ⟨kw, h1, h2⟩
    fin_cases h1 <;> exact absurd h2 (by decide)
  have hany : convictionKws.any (fun kw => containsSub kw (toLowerL ls)) = true := by
    rcases hc with ⟨kw, h1, h2⟩
    exact List.any_eq_true.mpr ⟨kw, h1, h2⟩
  simp only [extract_outcome_from_filename, hacq, hcv1, hcv2, hany, Bool.or_self, Bool.false_eq_true,
    if_false, ne_eq, hne, not_false_eq_true, if_true, if_pos]

/-- C10 witness at a concrete filename and summary containing both phrases. -/
theorem C10_witness :
    extract_outcome_from_filename (strL "case_1.md")
      (strL "the accused was convicted but later acquitted") = strL "Convicted" :=
  C10_conviction_checked_first _ _ (by decide) (by decide) (by decide)
    ⟨strL "convicted", by decide, by decide⟩ ⟨strL "acquitted", by decide, by decide⟩

-- ======================================================================
-- Severity score extractor: src/main.py, lines 743-766 (load_json_analyses),
-- identical regex logic at lines 845-867 (load_analysis_list) and
-- 1317-1341 (load_analysis_detail).
-- ======================================================================

/-- After a newline: regex tail `\s*\*\*Score:\s*(\d+)` (IGNORECASE).  The
greedy `\s*` runs are deterministic because the characters that must follow
them (`*` and a digit) are not whitespace. -/
def nlScoreAt (cs : Str) : Option Nat :=
  let t := cs.dropWhile isWs
  match matchCS (strL "**") t with
  | none => none
  | some t1 =>
    match matchCI (strL "score:") t1 with
    | none => none
    | some t2 =>
      let t3 := t2.dropWhile isWs
      let ds := t3.takeWhile isDigitC
      if ds = [] then none else some (digitsToNat ds)

/-- Scan for the first `\n` from which `\s*\*\*Score:\s*(\d+)` matches
(the lazy `.*?` of the overall-score regex tries each later position in
turn, so each newline is attempted independently). -/
def findNlScore : Str → Option Nat
  | [] => none
  | c :: cs =>
    if c = '\n' then
      match nlScoreAt cs with
      | some n => some n
      | none => findNlScore cs
    else findNlScore cs

/-- Python `re.search(r"Overall Lapse Severity Score.*?\n\s*\*\*Score:\s*(\d+)",
content, re.IGNORECASE | re.DOTALL)`: the first occurrence of the heading that
is followed (anywhere later, `.*?` with DOTALL) by a line starting, after
whitespace, with `**Score: N`; returns that first such `N`. -/
def findOverall : Str → Option Nat
  | [] => none
  | c :: cs =>
    match matchCI (strL "overall lapse severity score") (c :: cs) with
    | some rest =>
      (match findNlScore rest with
       | some n => some n
       | none => findOverall cs)
    | none => findOverall cs

/-- Regex tail `:\s*(?:\*\*)?(\d+)` shared by the lapse pattern: skip
whitespace, an optional literal `**`, then one or more digits. -/
def scoreDigitsAt (t : Str) : Option Nat :=
  let t1 := t.dropWhile isWs
  let t2 := match matchCS (strL "**") t1 with
    | some r => r
    | none => t1
  let ds := t2.takeWhile isDigitC
  if ds = [] then none else some (digitsToNat ds)

/-- Python `re.search(r"Lapse Severity Score:\s*(?:\*\*)?(\d+)", content,
re.IGNORECASE)`: first occurrence of the literal (case-insensitively)
followed by whitespace, optional `**`, and digits. -/
def findLapse : Str → Option Nat
  | [] => none
  | c :: cs =>
    match matchCI (strL "lapse severity score:") (c :: cs) with
    | some rest =>
      (match scoreDigitsAt rest with
       | some n => some n
       | none => findLapse cs)
    | none => findLapse cs

/-- One anchored attempt of `[^\n]*?Score:\s*(?:\*\*)?(\d+)`: walk the current
line (the lazy `[^\n]*?` advances one character at a time), and at each
position try `Score:` (case-insensitively) followed by whitespace (which may
cross newlines), optional `**`, and digits.  On success, return the value and
the remainder of the input after the digits. -/
def tryLineScore : Str → Option (Nat × Str)
  | [] => none
  | c :: cs =>
    if c = '\n' then none
    else
      match matchCI (strL "score:") (c :: cs) with
      | some t =>
        let t1 := t.dropWhile isWs
        let t2 := match matchCS (strL "**") t1 with
          | some r => r
          | none => t1
        let ds := t2.takeWhile isDigitC
        if ds = [] then tryLineScore cs else some (digitsToNat ds, t2.drop ds.length)
      | none => tryLineScore cs

/-- Remaining matches of `re.findall(r"(?:^|\n)[^\n]*?Score:\s*(?:\*\*)?(\d+)",
content, re.IGNORECASE)` after the start-of-string anchor has been handled:
each `\n` starts a new non-overlapping attempt; scanning resumes after the
digits of a successful match.  Fuelled by the input length. -/
def findAllScoresGo : Nat → Str → List Nat
  | 0, _ => []
  | _, [] => []
  | fuel + 1, c :: cs =>
    if c = '\n' then
      match tryLineScore cs with
      | some (n, rest) => n :: findAllScoresGo fuel rest
      | none => findAllScoresGo fuel cs
    else findAllScoresGo fuel cs

/-- All matches of the findall pattern, in document order. -/
def findAllScoresL (s : Str) : List Nat :=
  match tryLineScore s with
  | some (n, rest) => n :: findAllScoresGo rest.length rest
  | none => findAllScoresGo s.length s

/-- Severity extraction from audit content as in src/main.py lines 743-766:
`severity` starts as the optional JSON `severity_score` value; when the audit
content is nonempty, an "Overall Lapse Severity Score" heading wins, then any
"Lapse Severity Score: N", and only when the initial value is absent, the
last "…Score: N" match. -/
def extractSeverityContent (initial : Option Nat) (content : Str) : Option Nat :=
  if content = [] then initial
  else
    match findOverall content with
    | some n => some n
    | none =>
      match findLapse content with
      | some n => some n
      | none =>
        match initial with
        | some v => some v
        | none =>
          match (findAllScoresL content).getLast? with
          | some n => some n
          | none => none

/-- The severity score extractor proper (no pre-existing score). -/
def extractSeverity (content : Str) : Option Nat := extractSeverityContent none content

-- ======================================================================
-- Claims C2 and C6 (severity score extraction)
-- ======================================================================

/-- C2: the severity extractor applies a fixed priority, first match wins:
(1) a score after an "Overall Lapse Severity Score" heading, (2) any
"Lapse Severity Score: N", (3) the last "…Score: N" line; in particular,
audit content with a department "Score: 4" followed by an overall heading
with "**Score: 7**" on a following line yields 7, not 4. -/
theorem C2_severity_priority :
    (∀ c n, c ≠ [] → findOverall c = some n → extractSeverity c = some n) ∧
    (∀ c n, c ≠ [] → findOverall c = none → findLapse c = some n →
      extractSeverity c = some n) ∧
    (∀ c n, c ≠ [] → findOverall c = none → findLapse c = none →
      (findAllScoresL c).getLast? = some n → extractSeverity c = some n) ∧
    extractSeverity (strL
        "Department of Police\nScore: 4\n\nOverall Lapse Severity Score\n**Score: 7**\n") =
      some 7 := by
  refine ⟨?_, ?_, ?_, by decide⟩
  · intro c n h1 h2
    simp only [extractSeverity, extractSeverityContent, if_neg h1, h2]
  · intro c n h1 h2 h3
    simp only [extractSeverity, extractSeverityContent, if_neg h1, h2, h3]
  · intro c n h1 h2 h3 h4
    simp only [extractSeverity, extractSeverityContent, if_neg h1, h2, h3, h4]

/-- C2 witness: the priority theorem applied to the concrete audit content
containing both a department score 4 and an overall score 7. -/
theorem C2_witness :
    extractSeverity (strL
        "Department of Police\nScore: 4\n\nOverall Lapse Severity Score\n**Score: 7**\n") =
      some 7 :=
  C2_severity_priority.1 _ 7 (by decide) (by decide)

/-- C6 counterexample.  The claim says any extracted value lies in [0,10];
but the extractor takes the digits verbatim, so content declaring a score of
15 yields 15, which exceeds 10. -/
theorem C6_counterexample :
    ∃ n, extractSeverity (strL "Lapse Severity Score: 15") = some n ∧ 10 < n :=
  ⟨15, by decide, by decide⟩

/-- C6 (amended): severity extraction returns the integer written in the
document verbatim; values are not clamped to [0,10], so in-range scores come
back unchanged and an out-of-range score such as 15 is returned as 15. -/
theorem C6_no_clamping :
    extractSeverity (strL "Lapse Severity Score: 15") = some 15 ∧
    extractSeverity (strL "Lapse Severity Score: 7") = some 7 := by
  decide

-- ======================================================================
-- Date normalizer: src/database.py, parse_date (lines 107-223)
-- ======================================================================

/-- A Python `datetime.date` value. -/
structure PyDate where
  year : Nat
  month : Nat
  day : Nat
deriving DecidableEq, Repr

/-- Gregorian leap year, as implemented by Python `datetime`. -/
def isLeap (y : Nat) : Bool := y % 4 = 0 ∧ (y % 100 ≠ 0 ∨ y % 400 = 0)

/-- Number of days in a month. -/
def daysInMonth (y m : Nat) : Nat :=
  if m = 2 then (if isLeap y then 29 else 28)
  else if m = 4 ∨ m = 6 ∨ m = 9 ∨ m = 11 then 30
  else 31

/-- Validity of a date, as enforced by the `datetime` constructor
(year 1..9999, month 1..12, day within the month). -/
def pyDateValid (d : PyDate) : Prop :=
  1 ≤ d.year ∧ d.year ≤ 9999 ∧ 1 ≤ d.month ∧ d.month ≤ 12 ∧
    1 ≤ d.day ∧ d.day ≤ daysInMonth d.year d.month

instance (d : PyDate) : Decidable (pyDateValid d) := by
  unfold pyDateValid; infer_instance

/-- The `datetime(year, month, day)` constructor: a date when valid,
otherwise `none` (Python raises `ValueError`, which `parse_date` catches). -/
def mkDate (y m dd : Nat) : Option PyDate :=
  if 1 ≤ y ∧ y ≤ 9999 ∧ 1 ≤ m ∧ m ≤ 12 ∧ 1 ≤ dd ∧ dd ≤ daysInMonth y m then
    some ⟨y, m, dd⟩
  else none

theorem mkDate_valid {y m dd : Nat} {d : PyDate} (h : mkDate y m dd = some d) :
    pyDateValid d := by
  unfold mkDate at h
  split at h
  · cases h
    exact ‹_›
  · cases h

/-- `strptime` `%d` directive, compiled to `(3[01]|[12]\d|0[1-9]|[1-9])`.
The alternatives are tried in regex order; in every format used here the
next pattern element is a non-digit, so the longest alternative that matches
is the one the regex engine keeps. -/
def parseDay : Str → Option (Nat × Str)
  | [] => none
  | c1 :: rest1 =>
    match rest1 with
    | c2 :: rest2 =>
      if c1 = '3' ∧ (c2 = '0' ∨ c2 = '1') then some (digitsToNat [c1, c2], rest2)
      else if (c1 = '1' ∨ c1 = '2') ∧ isDigitC c2 then some (digitsToNat [c1, c2], rest2)
      else if c1 = '0' ∧ ('1' ≤ c2 ∧ c2 ≤ '9') then some (digitsToNat [c1, c2], rest2)
      else if '1' ≤ c1 ∧ c1 ≤ '9' then some (digitsToNat [c1], rest1)
      else none
    | [] => if '1' ≤ c1 ∧ c1 ≤ '9' then some (digitsToNat [c1], []) else none

/-- `strptime` `%m` directive, compiled to `(1[0-2]|0[1-9]|[1-9])`. -/
def parseMonthNum : Str → Option (Nat × Str)
  | [] => none
  | c1 :: rest1 =>
    match rest1 with
    | c2 :: rest2 =>
      if c1 = '1' ∧ (c2 = '0' ∨ c2 = '1' ∨ c2 = '2') then some (digitsToNat [c1, c2], rest2)
      else if c1 = '0' ∧ ('1' ≤ c2 ∧ c2 ≤ '9') then some (digitsToNat [c1, c2], rest2)
      else if '1' ≤ c1 ∧ c1 ≤ '9' then some (digitsToNat [c1], rest1)
      else none
    | [] => if '1' ≤ c1 ∧ c1 ≤ '9' then some (digitsToNat [c1], []) else none

/-- `strptime` `%Y` directive: exactly four digits. -/
def parseY4 : Str → Option (Nat × Str)
  | a :: b :: c :: d :: rest =>
    if isDigitC a ∧ isDigitC b ∧ isDigitC c ∧ isDigitC d then
      some (digitsToNat [a, b, c, d], rest)
    else none
  | _ => none

/-- `strptime` `%y` directive: exactly two digits; 0-68 maps to 2000-2068 and
69-99 to 1969-1999. -/
def parseY2 : Str → Option (Nat × Str)
  | a :: b :: rest =>
    if isDigitC a ∧ isDigitC b then
      let yy := digitsToNat [a, b]
      some ((if yy ≤ 68 then 2000 + yy else 1900 + yy), rest)
    else none
  | _ => none

/-- A literal character in a `strptime` format. -/
def parseLit (ch : Char) : Str → Option Str
  | [] => none
  | c :: cs => if c = ch then some cs else none

/-- Whitespace in a `strptime` format matches one or more whitespace chars. -/
def parseWs1 : Str → Option Str
  | [] => none
  | c :: cs => if isWs c then some (cs.dropWhile isWs) else none

/-- English month names for `%B` (full names, matched case-insensitively;
the set is prefix-free so first-match is deterministic). -/
def monthNamesFull : List (Str × Nat) :=
  [(strL "january", 1), (strL "february", 2), (strL "march", 3), (strL "april", 4),
   (strL "may", 5), (strL "june", 6), (strL "july", 7), (strL "august", 8),
   (strL "september", 9), (strL "october", 10), (strL "november", 11),
   (strL "december", 12)]

/-- `strptime` `%B` directive. -/
def parseMonthName (s : Str) : Option (Nat × Str) :=
  monthNamesFull.foldr
    (fun (p : Str × Nat) acc =>
      match matchCI p.1 s with
      | some r => some (p.2, r)
      | none => acc)
    none

/-- Format `%Y<sep>%m<sep>%d` (full-string match). -/
def runYMD (sep : Char) (s : Str) : Option (Nat × Nat × Nat) := do
  let (y, r1) ← parseY4 s
  let r2 ← parseLit sep r1
  let (m, r3) ← parseMonthNum r2
  let r4 ← parseLit sep r3
  let (d, r5) ← parseDay r4
  if r5 = [] then some (y, m, d) else none

/-- Format `%d<sep>%m<sep>%Y` (full-string match). -/
def runDMY (sep : Char) (s : Str) : Option (Nat × Nat × Nat) := do
  let (d, r1) ← parseDay s
  let r2 ← parseLit sep r1
  let (m, r3) ← parseMonthNum r2
  let r4 ← parseLit sep r3
  let (y, r5) ← parseY4 r4
  if r5 = [] then some (y, m, d) else none

/-- Format `%d/%m/%y` (full-string match). -/
def runDMY2 (s : Str) : Option (Nat × Nat × Nat) := do
  let (d, r1) ← parseDay s
  let r2 ← parseLit '/' r1
  let (m, r3) ← parseMonthNum r2
  let r4 ← parseLit '/' r3
  let (y, r5) ← parseY2 r4
  if r5 = [] then some (y, m, d) else none

/-- Format `%d %B, %Y` (full-string match; the format-string blank matches
one or more whitespace characters). -/
def runDBY (s : Str) : Option (Nat × Nat × Nat) := do
  let (d, r1) ← parseDay s
  let r2 ← parseWs1 r1
  let (m, r3) ← parseMonthName r2
  let r4 ← parseLit ',' r3
  let r5 ← parseWs1 r4
  let (y, r6) ← parseY4 r5
  if r6 = [] then some (y, m, d) else none

/-- Format `%B %d, %Y` (full-string match). -/
def runBDY (s : Str) : Option (Nat × Nat × Nat) := do
  let (m, r1) ← parseMonthName s
  let r2 ← parseWs1 r1
  let (d, r3) ← parseDay r2
  let r4 ← parseLit ',' r3
  let r5 ← parseWs1 r4
  let (y, r6) ← parseY4 r5
  if r6 = [] then some (y, m, d) else none

/-- The `formats` list of `parse_date`, in source order. -/
def dateFormats : List (Str → Option (Nat × Nat × Nat)) :=
  [runYMD '-', runDMY '-', runDMY '.', runDMY '/', runDMY2, runYMD '/', runDBY, runBDY]

/-- `datetime.strptime(s, fmt).date()`: run the format, then construct the
date (construction fails on invalid calendar dates, like the 31st of a
30-day month, exactly as `strptime` raises `ValueError`). -/
def parseFmt (f : Str → Option (Nat × Nat × Nat)) (s : Str) : Option PyDate :=
  match f s with
  | some (y, m, d) => mkDate y m d
  | none => none

/-- One pass of `re.sub(r"(\d+)<ab>", r"\1", s)` for a two-character suffix
`ab`: delete the suffix exactly when it immediately follows a digit (matches
are the maximal digit runs followed by the suffix, scanned left to right).
The boolean tracks whether the previous character was a digit. -/
def subPass2 (a b : Char) : Bool → Str → Str
  | _, [] => []
  | _, [c] => [c]
  | prev, c1 :: c2 :: cs =>
    if prev ∧ c1 = a ∧ c2 = b then subPass2 a b (isDigitC c2) cs
    else c1 :: subPass2 a b (isDigitC c1) (c2 :: cs)

/-- The pre-cleaning loop of `parse_date`: successive substitutions for the
suffixes "st", "nd", "rd", "th" (in that order). -/
def stripOrdinals1 (s : Str) : Str :=
  subPass2 't' 'h' false (subPass2 'r' 'd' false
    (subPass2 'n' 'd' false (subPass2 's' 't' false s)))

/-- `re.sub(r"(\d+)(st|nd|rd|th)", r"\1", s)` of the verbose branch: one pass
removing any of the four suffixes after a digit. -/
def subPassAny : Bool → Str → Str
  | _, [] => []
  | _, [c] => [c]
  | prev, c1 :: c2 :: cs =>
    if prev ∧ ((c1 = 's' ∧ c2 = 't') ∨ (c1 = 'n' ∧ c2 = 'd') ∨
               (c1 = 'r' ∧ c2 = 'd') ∨ (c1 = 't' ∧ c2 = 'h')) then
      subPassAny (isDigitC c2) cs
    else c1 :: subPassAny (isDigitC c1) (c2 :: cs)

/-- The verbose branch's cleanup: lower-case input is expected; strip ordinal
suffixes, remove "day of" and "on this", turn commas into spaces, and
collapse double spaces once (each a single `str.replace` pass). -/
def verboseClean (lowerS : Str) : Str :=
  replaceAll (strL "  ") (strL " ")
    (replaceAll (strL ",") (strL " ")
      (replaceAll (strL "on this") []
        (replaceAll (strL "day of") [] (subPassAny false lowerS))))

/-- Word boundary after a token: end of string or a non-word character. -/
def noWordAfter : Str → Bool
  | [] => true
  | r :: _ => !isWordC r

/-- `re.search(r"\b(20\d{2})\b", s)`: first four-digit 20xx token with word
boundaries.  The boolean tracks whether the previous character is a word
character. -/
def findYearGo : Bool → Str → Option Nat
  | _, [] => none
  | prevW, c :: cs =>
    (match cs with
     | c2 :: c3 :: c4 :: rest =>
       if prevW = false ∧ c = '2' ∧ c2 = '0' ∧ isDigitC c3 ∧ isDigitC c4 ∧
          noWordAfter rest then
         some (digitsToNat [c, c2, c3, c4])
       else findYearGo (isWordC c) cs
     | _ => findYearGo (isWordC c) cs)

/-- The `months` lookup table of the verbose branch, in insertion order:
full month names first, then the abbreviations (no "may" abbreviation). -/
def monthsTable : List (Str × Nat) :=
  monthNamesFull ++
  [(strL "jan", 1), (strL "feb", 2), (strL "mar", 3), (strL "apr", 4),
   (strL "jun", 6), (strL "jul", 7), (strL "aug", 8), (strL "sep", 9),
   (strL "sept", 9), (strL "oct", 10), (strL "nov", 11), (strL "dec", 12)]

/-- First month name of the table occurring as a substring (the verbose
branch's `for m_name, m_val in months.items(): if m_name in clean_s`). -/
def findMonthGo : List (Str × Nat) → Str → Option Nat
  | [], _ => none
  | (nm, v) :: rest, s => if containsSub nm s then some v else findMonthGo rest s

/-- `re.search(r"\b([1-9]|[12]\d|3[01])\b", s)`: first day-like token; the
alternatives are tried in regex order at each position. -/
def findDayGo : Bool → Str → Option Nat
  | _, [] => none
  | prevW, c :: cs =>
    (if prevW = false then
      match cs with
      | c2 :: rest =>
        if ('1' ≤ c ∧ c ≤ '9') ∧ !isWordC c2 then some (digitsToNat [c])
        else if (c = '1' ∨ c = '2') ∧ isDigitC c2 ∧ noWordAfter rest then
          some (digitsToNat [c, c2])
        else if c = '3' ∧ (c2 = '0' ∨ c2 = '1') ∧ noWordAfter rest then
          some (digitsToNat [c, c2])
        else findDayGo (isWordC c) cs
      | [] => if '1' ≤ c ∧ c ≤ '9' then some (digitsToNat [c]) else none
    else findDayGo (isWordC c) cs)

/-- The verbose extractor of `parse_date` (lines 152-221): lower-case, clean,
then find a year, a month name and a day token; construct the date and reject
years beyond `now.year + 1`.  Construction failures raise and are swallowed
by the surrounding `except`, i.e. yield `none`. -/
def verboseExtract (nowY : Nat) (s : Str) : Option PyDate :=
  let cleanS := verboseClean (toLowerL s)
  match findYearGo false cleanS, findMonthGo monthsTable cleanS, findDayGo false cleanS with
  | some y, some m, some dd =>
    (match mkDate y m dd with
     | some d => if d.year > nowY + 1 then none else some d
     | none => none)
  | _, _, _ => none

/-- The format loop of `parse_date`: each format is tried on the
suffix-stripped string, then on the original; a candidate whose year exceeds
`now.year + 1` makes the loop continue with the next format. -/
def tryFormats (nowY : Nat) (sClean sOrig : Str) :
    List (Str → Option (Nat × Nat × Nat)) → Option PyDate
  | [] => none
  | f :: fs =>
    match parseFmt f sClean with
    | some d => if d.year > nowY + 1 then tryFormats nowY sClean sOrig fs else some d
    | none =>
      match parseFmt f sOrig with
      | some d => if d.year > nowY + 1 then tryFormats nowY sClean sOrig fs else some d
      | none => tryFormats nowY sClean sOrig fs

/-- `parse_date` from src/database.py, parametrized by the current year
(`datetime.now().year`). -/
def parse_date (nowY : Nat) (dateStr : Str) : Option PyDate :=
  if dateStr = [] then none
  else
    let s := pyStrip dateStr
    let sClean := stripOrdinals1 s
    match tryFormats nowY sClean s dateFormats with
    | some d => some d
    | none => verboseExtract nowY s

-- ======================================================================
-- Claims C1 and C3 (date normalizer)
-- ======================================================================

theorem parseFmt_valid {f : Str → Option (Nat × Nat × Nat)} {s : Str} {d : PyDate}
    (h : parseFmt f s = some d) : pyDateValid d := by
  unfold parseFmt at h
  cases hfs : f s with
  | none => rw [hfs] at h; cases h
  | some t =>
    obtain ⟨y, m, dd⟩ := t
    rw [hfs] at h
    exact mkDate_valid h

theorem tryFormats_some {nowY : Nat} {a b : Str}
    {fs : List (Str → Option (Nat × Nat × Nat))} {d : PyDate}
    (h : tryFormats nowY a b fs = some d) :
    pyDateValid d ∧ d.year ≤ nowY + 1 := by
  induction fs with
  | nil => cases h
  | cons f fs ih =>
    unfold tryFormats at h
    cases h1 : parseFmt f a with
    | some d1 =>
      rw [h1] at h
      dsimp only at h
      by_cases hy : d1.year > nowY + 1
      · rw [if_pos hy] at h; exact ih h
      · rw [if_neg hy] at h
        injection h with h'
        subst h'
        exact ⟨parseFmt_valid h1, by omega⟩
    | none =>
      rw [h1] at h
      dsimp only at h
      cases h2 : parseFmt f b with
      | some d1 =>
        rw [h2] at h
        dsimp only at h
        by_cases hy : d1.year > nowY + 1
        · rw [if_pos hy] at h; exact ih h
        · rw [if_neg hy] at h
          injection h with h'
          subst h'
          exact ⟨parseFmt_valid h2, by omega⟩
      | none => rw [h2] at h; dsimp only at h; exact ih h

theorem verboseExtract_some {nowY : Nat} {s : Str} {d : PyDate}
    (h : verboseExtract nowY s = some d) :
    pyDateValid d ∧ d.year ≤ nowY + 1 := by
  unfold verboseExtract at h
  dsimp only at h
  split at h
  · split at h
    · split at h
      · cases h
      · injection h with h'
        subst h'
        constructor
        · exact mkDate_valid (by assumption)
        · omega
    · cases h
  · cases h

theorem parse_date_valid (nowY : Nat) (s : Str) (d : PyDate)
    (h : parse_date nowY s = some d) : pyDateValid d ∧ d.year ≤ nowY + 1 := by
  unfold parse_date at h
  split at h
  · cases h
  · dsimp only at h
    split at h
    · injection h with h'
      subst h'
      exact tryFormats_some (by assumption)
    · exact verboseExtract_some h

/-- C1: `parse_date` maps "03-10-2025" to 2025-10-03 and "30th December,
2025" to 2025-12-30, but on "Thursday, this the 09 day of October, 2025." it
returns no date: the verbose branch's day regex `\b([1-9]|[12]\d|3[01])\b`
cannot match the zero-padded token "09" (no alternative starts with '0'),
although the source comment at src/database.py line 152 names exactly this
input as the one the branch handles.  Dropping the leading zero yields the
expected 2025-10-09. -/
theorem C1_date_roundtrip_eval :
    parse_date 2025 (strL "03-10-2025") = some ⟨2025, 10, 3⟩ ∧
    parse_date 2025 (strL "30th December, 2025") = some ⟨2025, 12, 30⟩ ∧
    parse_date 2025 (strL "Thursday, this the 09 day of October, 2025.") = none ∧
    parse_date 2025 (strL "Thursday, this the 9 day of October, 2025.") = some ⟨2025, 10, 9⟩ := by
  decide

/-- C3: every date `parse_date` yields is a valid calendar date with year at
most current-year+1, and the future-dated "30 December, 2095" (which matches
the strict format `%d %B, %Y` and the verbose extractor, both rejected by the
year guard) yields no result. -/
theorem C3_future_year_rejected :
    (∀ (nowY : Nat) (s : Str) (d : PyDate),
        parse_date nowY s = some d → pyDateValid d ∧ d.year ≤ nowY + 1) ∧
    parse_date 2025 (strL "30 December, 2095") = none :=
  ⟨parse_date_valid, by decide⟩

/-- C3 witness: the bound theorem applied at the concrete input
"03-10-2025" with its parsed date. -/
theorem C3_witness :
    pyDateValid ⟨2025, 10, 3⟩ ∧ (PyDate.mk 2025 10 3).year ≤ 2025 + 1 :=
  C3_future_year_rejected.1 2025 (strL "03-10-2025") ⟨2025, 10, 3⟩ (by decide)

-- ======================================================================
-- Markdown table parser: src/main.py, strip_code_fences (439-448),
-- strip_bold (451-453), parse_markdown_table (456-510)
-- ======================================================================

/-- Split a whitespace run at its last newline: `(before, from-last-newline)`.
Used to find where `\s*$` ends a MULTILINE match (the greedy `\s*` backtracks
to the rightmost position at which `$` holds, i.e. the last `\n` of the run,
or the end of input). -/
def splitLastNl (w : Str) : Option (Str × Str) :=
  if w.any (· = '\n') then
    let after := (w.reverse.takeWhile (· ≠ '\n')).reverse
    some (w.take (w.length - after.length - 1), '\n' :: after)
  else none

/-- One anchored attempt of `^\s*```\w*\s*$` (MULTILINE).  All greedy runs
are deterministic because each is followed by a character of a disjoint
class.  On success returns `(anchorNext, rest)`: the unconsumed remainder and
whether the character just before it is a newline (so the next position is
again a line start). -/
def fenceAttempt (t : Str) : Option (Bool × Str) :=
  let r1 := t.dropWhile isWs
  match matchCS (strL "```") r1 with
  | none => none
  | some r2 =>
    let r3 := r2.dropWhile isWordC
    let w2 := r3.takeWhile isWs
    let r4 := r3.dropWhile isWs
    if r4 = [] then some (false, [])
    else
      match splitLastNl w2 with
      | some (before, tl) => some (before.getLast? = some '\n', tl ++ r4)
      | none => none

/-- One anchored attempt of `^\s*#+ .*$` (MULTILINE).  The match always ends
at the line end (before the `\n`), so the next position is never an anchor. -/
def headingAttempt (t : Str) : Option (Bool × Str) :=
  let r1 := t.dropWhile isWs
  let hs := r1.takeWhile (· = '#')
  let r2 := r1.dropWhile (· = '#')
  if hs = [] then none
  else
    match r2 with
    | ' ' :: r3 => some (false, r3.dropWhile (· ≠ '\n'))
    | _ => none

/-- One anchored attempt of `^\s*---+\s*$` (MULTILINE). -/
def hruleAttempt (t : Str) : Option (Bool × Str) :=
  let r1 := t.dropWhile isWs
  let ds := r1.takeWhile (· = '-')
  let r2 := r1.dropWhile (· = '-')
  if ds.length < 3 then none
  else
    let w2 := r2.takeWhile isWs
    let r3 := r2.dropWhile isWs
    if r3 = [] then some (false, [])
    else
      match splitLastNl w2 with
      | some (before, tl) => some (before.getLast? = some '\n', tl ++ r3)
      | none => none

/-- `re.sub(pattern, "", text, flags=re.MULTILINE)` driver: anchors are the
start of input and every position following a `\n`; a failed anchor attempt
falls through to ordinary scanning; a successful match is dropped from the
output and scanning resumes right after it.  Fuelled by the input length. -/
def subScan (attempt : Str → Option (Bool × Str)) : Nat → Bool → Str → Str
  | 0, _, s => s
  | _, _, [] => []
  | fuel + 1, atAnchor, c :: cs =>
    if atAnchor then
      match attempt (c :: cs) with
      | some (anchorNext, rest) => subScan attempt fuel anchorNext rest
      | none => c :: subScan attempt fuel (c = '\n') cs
    else c :: subScan attempt fuel (c = '\n') cs

/-- `strip_code_fences` from src/main.py: remove code-fence lines, heading
lines, and horizontal-rule lines, then strip. -/
def strip_code_fences (text : Str) : Str :=
  if text = [] then text
  else
    let t1 := subScan fenceAttempt text.length true text
    let t2 := subScan headingAttempt t1.length true t1
    let t3 := subScan hruleAttempt t2.length true t2
    pyStrip t3

/-- `strip_bold` from src/main.py: `re.sub(r"\*\*([^*]*?)\*\*", r"\1", text)`.
The lazy inner capture cannot contain `*`, so it runs to the first `*`, which
must start a closing `**`. -/
def stripBoldGo : Nat → Str → Str
  | 0, s => s
  | _, [] => []
  | fuel + 1, c :: cs =>
    match matchCS (strL "**") (c :: cs) with
    | some r =>
      let inner := r.takeWhile (· ≠ '*')
      let r2 := r.dropWhile (· ≠ '*')
      (match matchCS (strL "**") r2 with
       | some r3 => inner ++ stripBoldGo fuel r3
       | none => c :: stripBoldGo fuel cs)
    | none => c :: stripBoldGo fuel cs

/-- `strip_bold` (empty input returned unchanged, as in the source). -/
def strip_bold (s : Str) : Str := if s = [] then s else stripBoldGo s.length s

/-- A Python dict as an insertion-ordered association list;
`dictSet` is `d[k] = v` (overwrite in place, else append). -/
abbrev Dict := List (Str × Str)

def dictSet : Dict → Str → Str → Dict
  | [], k, v => [(k, v)]
  | (k0, v0) :: rest, k, v =>
    if k0 = k then (k0, v) :: rest else (k0, v0) :: dictSet rest k v

/-- Python `d.get(k, default)`. -/
def dictGetD (d : Dict) (k : Str) (dflt : Str) : Str :=
  match d.find? (fun p => p.1 = k) with
  | some p => p.2
  | none => dflt

/-- Cell values of a table line: strip the pipes at the ends, split on `|`,
strip each cell. -/
def lineCols (line : Str) : List Str :=
  (splitOnC '|' (stripChar '|' line)).map pyStrip

/-- Header cells: like `lineCols`, but each header is also bold-stripped and
has its colons removed. -/
def headerCells (line : Str) : List Str :=
  (splitOnC '|' (stripChar '|' line)).map
    (fun h => replaceAll (strL ":") [] (strip_bold (pyStrip h)))

/-- The `row_dict` loop of `parse_markdown_table`: for each header (stripped
again) assign the positional cell, padding with "". -/
def buildRow (cols : List Str) : List Str → Nat → Dict → Dict
  | [], _, acc => acc
  | h :: hs, i, acc => buildRow cols hs (i + 1) (dictSet acc (pyStrip h) (cols.getD i []))

/-- Non-blank stripped lines of the cleaned text that start with a pipe. -/
def tableLinesFrom (cleaned : Str) : List Str :=
  (((splitOnC '\n' cleaned).map pyStrip).filter (fun l => l ≠ [])).filter
    (fun l => (strL "|").isPrefixOf l)

/-- Table lines of the raw section content. -/
def tableLinesOf (md : Str) : List Str := tableLinesFrom (strip_code_fences md)

/-- Parsed headers of the raw section content. -/
def headersOf (md : Str) : List Str := headerCells ((tableLinesOf md).headD [])

/-- `parse_markdown_table` from src/main.py. -/
def parse_markdown_table (md : Str) : List Dict :=
  if pyStrip md = [] then []
  else
    let cleaned := strip_code_fences md
    if cleaned = [] then []
    else
      let tls := tableLinesFrom cleaned
      if tls.length < 3 then []
      else
        let headers := headerCells (tls.headD [])
        let rows := (tls.drop 2).map (fun line => buildRow (lineCols line) headers 0 [])
        if rows = [] then []
        else
          if 2 ≤ headers.length ∧
              (pyStrip (toLowerL (headers.headD [])) = strL "field" ∨
               pyStrip (toLowerL (headers.headD [])) = strL "metadata field") then
            let mapped := rows.foldl
              (fun acc r =>
                if 2 ≤ r.length then
                  dictSet acc (pyStrip (toLowerL ((r.getD 0 ([], [])).2)))
                    ((r.getD 1 ([], [])).2)
                else acc) []
            if mapped = [] then [] else [mapped]
          else rows

-- ======================================================================
-- Claim C7 (vertical metadata tables)
-- ======================================================================

theorem dictSet_ne_nil (acc : Dict) (k v : Str) : dictSet acc k v ≠ [] := by
  cases acc with
  | nil => simp [dictSet]
  | cons p rest =>
    obtain ⟨k0, v0⟩ := p
    simp only [dictSet]
    split <;> simp

theorem dictSet_append {acc : Dict} {k : Str} (v : Str)
    (h : k ∉ acc.map Prod.fst) : dictSet acc k v = acc ++ [(k, v)] := by
  induction acc with
  | nil => simp [dictSet]
  | cons p rest ih =>
    obtain ⟨k0, v0⟩ := p
    simp only [List.map_cons, List.mem_cons] at h
    push_neg at h
    simp only [dictSet, if_neg (Ne.symm h.1)]
    rw [ih h.2]
    simp

/-- The row dictionary written out positionally, as produced when the
stripped headers are pairwise distinct. -/
def rowPairs (cols : List Str) : List Str → Nat → Dict
  | [], _ => []
  | h :: hs, i => (pyStrip h, cols.getD i []) :: rowPairs cols hs (i + 1)

theorem buildRow_eq_rowPairs (cols : List Str) :
    ∀ (hs : List Str) (i : Nat) (acc : Dict),
      (∀ h ∈ hs, pyStrip h ∉ acc.map Prod.fst) →
      ((hs.map pyStrip).Nodup) →
      buildRow cols hs i acc = acc ++ rowPairs cols hs i := by
  intro hs
  induction hs with
  | nil => intro i acc _ _; simp [buildRow, rowPairs]
  | cons h hs ih =>
    intro i acc hdisj hnd
    rw [List.map_cons] at hnd
    obtain ⟨hnotin, hnd2⟩ := List.nodup_cons.mp hnd
    simp only [buildRow, rowPairs]
    rw [dictSet_append _ (hdisj h (by simp))]
    rw [ih (i + 1) _ ?_ ?_]
    · simp
    · intro h' hh'
      simp only [List.map_append, List.mem_append, List.map_cons]
      push_neg
      constructor
      · exact hdisj h' (by simp [hh'])
      · simp only [List.map_nil, List.mem_singleton]
        intro heq
        exact hnotin (heq ▸ List.mem_map_of_mem pyStrip hh')
    · exact hnd2

/-- Modelled on the spec's words for C7: the vertical Field/Value table
collapses to one mapping from the lower-cased first-column value of each data
row to its second-column value. -/
def verticalMapSpec (md : Str) : Dict :=
  ((tableLinesOf md).drop 2).foldl
    (fun acc line =>
      dictSet acc (pyStrip (toLowerL ((lineCols line).getD 0 [])))
        ((lineCols line).getD 1 []))
    []

theorem foldl_vert_ne_nil (key val : Str → Str) :
    ∀ (l : List Str) (acc : Dict), (acc ≠ [] ∨ l ≠ []) →
      l.foldl (fun acc line => dictSet acc (key line) (val line)) acc ≠ [] := by
  intro l
  induction l with
  | nil =>
    intro acc h
    rcases h with h | h
    · simpa using h
    · simp at h
  | cons x xs ih =>
    intro acc _
    simp only [List.foldl_cons]
    exact ih _ (Or.inl (dictSet_ne_nil _ _ _))

theorem C7_vertical (md : Str)
    (h0 : pyStrip md ≠ [])
    (h1 : 3 ≤ (tableLinesOf md).length)
    (h2 : pyStrip (toLowerL ((headersOf md).headD [])) = strL "field" ∨
          pyStrip (toLowerL ((headersOf md).headD [])) = strL "metadata field")
    (h3 : 2 ≤ (headersOf md).length)
    (h4 : ((headersOf md).map pyStrip).Nodup) :
    parse_markdown_table md = [verticalMapSpec md] := by
  have hcl : strip_code_fences md ≠ [] := by
    intro hc
    unfold tableLinesOf at h1
    rw [hc] at h1
    simp [tableLinesFrom, splitOnC, pyStrip] at h1
  unfold headersOf at h2 h3 h4
  unfold tableLinesOf at h1 h2 h3 h4
  unfold parse_markdown_table verticalMapSpec tableLinesOf
  simp only [if_neg h0, if_neg hcl]
  have hlen : ¬ (tableLinesFrom (strip_code_fences md)).length < 3 := by omega
  rw [if_neg hlen]
  have hdrops : (tableLinesFrom (strip_code_fences md)).drop 2 ≠ [] := by
    intro hh
    have := congrArg List.length hh
    simp only [List.length_drop, List.length_nil] at this
    omega
  have hrowsne : ((tableLinesFrom (strip_code_fences md)).drop 2).map
      (fun line => buildRow (lineCols line)
        (headerCells ((tableLinesFrom (strip_code_fences md)).headD [])) 0 []) ≠ [] := by
    simpa using hdrops
  rw [if_neg hrowsne]
  rw [if_pos ⟨h3, h2⟩]
  generalize hgen : headerCells ((tableLinesFrom (strip_code_fences md)).headD []) = headers at h3 h4 ⊢
  obtain ⟨ha, hb, hrest, hhd⟩ : ∃ ha hb hrest, headers = ha :: hb :: hrest := by
    cases headers with
    | nil => simp at h3
    | cons ha t =>
      cases t with
      | nil => simp at h3
      | cons hb hrest => exact ⟨ha, hb, hrest, rfl⟩
  have hrow : ∀ line, buildRow (lineCols line) headers 0 [] =
      rowPairs (lineCols line) headers 0 := by
    intro line
    rw [buildRow_eq_rowPairs _ headers 0 [] (by simp) h4]
    rfl
  have hfold : List.foldl
      (fun acc r => if 2 ≤ r.length then
          dictSet acc (pyStrip (toLowerL ((r.getD 0 ([], [])).2))) ((r.getD 1 ([], [])).2)
        else acc)
      []
      (List.map (fun line => buildRow (lineCols line) headers 0 [])
        (List.drop 2 (tableLinesFrom (strip_code_fences md)))) =
      List.foldl
        (fun acc line =>
          dictSet acc (pyStrip (toLowerL ((lineCols line).getD 0 [])))
            ((lineCols line).getD 1 []))
        []
        (List.drop 2 (tableLinesFrom (strip_code_fences md))) := by
    rw [List.foldl_map]
    congr 1
    funext acc line
    rw [hrow line, hhd]
    simp [rowPairs]
  rw [hfold]
  have hmne : List.foldl
      (fun acc line =>
        dictSet acc (pyStrip (toLowerL ((lineCols line).getD 0 [])))
          ((lineCols line).getD 1 []))
      []
      (List.drop 2 (tableLinesFrom (strip_code_fences md))) ≠ [] :=
    foldl_vert_ne_nil _ _ _ [] (Or.inr hdrops)
  rw [if_neg hmne]

/-- C7 counterexample.  A one-column table whose only header is "Field"
meets the claim's hypotheses (first header "field", a header, a separator
and one data row), yet the parser returns the row sequence keyed by the
original, non-lower-cased header, because the vertical collapse additionally
requires at least two header cells. -/
theorem C7_counterexample :
    pyStrip (toLowerL ((headersOf (strL "| Field |\n| --- |\n| Court |")).headD [])) =
      strL "field" ∧
    3 ≤ (tableLinesOf (strL "| Field |\n| --- |\n| Court |")).length ∧
    parse_markdown_table (strL "| Field |\n| --- |\n| Court |") =
      [[(strL "Field", strL "Court")]] ∧
    strL "Field" ≠ toLowerL (strL "Field") := by
  decide

/-- C7 witness: the vertical-collapse theorem applied to a concrete
two-column Field/Value table. -/
theorem C7_witness :
    parse_markdown_table (strL "| Field | Value |\n| --- | --- |\n| Court | High Court |") =
      [verticalMapSpec (strL "| Field | Value |\n| --- | --- |\n| Court | High Court |")] :=
  C7_vertical _ (by decide) (by decide) (by decide) (by decide) (by decide)

-- ======================================================================
-- Metadata normalizer: src/main.py, normalize_metadata (513-568)
-- ======================================================================

/-- `re.match(r"([\d-]+)\s*\((.+)\)", v)`: an anchored digits/dashes run,
whitespace, an opening parenthesis, then a greedy nonempty capture running to
the last `)` of the newline-free stretch. -/
def parenMatch (v : Str) : Option (Str × Str) :=
  let digs := v.takeWhile (fun c => isDigitC c || c = '-')
  if digs = [] then none
  else
    let r1 := v.drop digs.length
    match r1.dropWhile isWs with
    | '(' :: r3 =>
      let line := r3.takeWhile (· ≠ '\n')
      (match line.reverse.dropWhile (· ≠ ')') with
       | ')' :: innerRev => if innerRev = [] then none else some (digs, innerRev.reverse)
       | _ => none)
    | _ => none

/-- `\s*(.+)` after a literal: the greedy capture takes the rest of the line;
when nothing non-whitespace follows, the whitespace run gives back its last
non-newline character to satisfy the mandatory `.+`. -/
def greedyCapWs (w u : Str) : Option Str :=
  match u with
  | c :: _ =>
    if c ≠ '\n' then some (u.takeWhile (· ≠ '\n'))
    else
      (match w.reverse.dropWhile (· = '\n') with
       | c' :: _ => some [c']
       | [] => none)
  | [] =>
    (match w.reverse.dropWhile (· = '\n') with
     | c' :: _ => some [c']
     | [] => none)

/-- `re.match(r"(.+?)\s*\+\s*(.+)", v)`: the lazy first capture pairs with
the first `+` whose preceding text (after giving back the whitespace gap) is
nonempty and newline-free and whose tail admits the second capture; failing
that, the capture extends past that `+` to the next one. -/
def plusMatchGo (pre : Str) : Str → Option (Str × Str)
  | [] => none
  | c :: cs =>
    if c = '+' then
      let cap1rev := pre.dropWhile isWs
      if cap1rev ≠ [] ∧ cap1rev.all (· ≠ '\n') then
        match greedyCapWs (cs.takeWhile isWs) (cs.dropWhile isWs) with
        | some cap2 => some (cap1rev.reverse, cap2)
        | none => plusMatchGo ('+' :: pre) cs
      else plusMatchGo ('+' :: pre) cs
    else plusMatchGo (c :: pre) cs

def plusMatch (v : Str) : Option (Str × Str) := plusMatchGo [] v

/-- `re.search(r"ISO:\s*([\d-]+)", v)` (case-sensitive). -/
def isoSearchGo : Str → Option Str
  | [] => none
  | c :: cs =>
    match matchCS (strL "ISO:") (c :: cs) with
    | some r1 =>
      let ds := (r1.dropWhile isWs).takeWhile (fun c => isDigitC c || c = '-')
      if ds = [] then isoSearchGo cs else some ds
    | none => isoSearchGo cs

/-- A lazy capture `(.+?)` with terminator `term`, possibly reclaiming the
trailing characters of the preceding whitespace run `w` (the regex engine
shortens the greedy `\s*`/`\s+` when needed, keeping at least `minWs`
whitespace characters).  Returns the capture and the rest at the
terminator. -/
def lazyCapGo (term : Str → Bool) : Str → Str → Option (Str × Str)
  | acc, [] => if acc ≠ [] ∧ term [] then some (acc.reverse, []) else none
  | acc, c :: cs =>
    if acc ≠ [] ∧ term (c :: cs) then some (acc.reverse, c :: cs)
    else if c = '\n' then none
    else lazyCapGo term (c :: acc) cs

def lazyCapBack (term : Str → Bool) (minWs : Nat) : Str → Str → Str → Option (Str × Str)
  | wrev, acc, u =>
    match lazyCapGo term acc u with
    | some r => some r
    | none =>
      match wrev with
      | [] => none
      | c :: rest =>
        if c = '\n' then none
        else if rest.length < minWs then none
        else lazyCapBack term minWs rest (c :: acc) u

/-- Terminator of `(.+?)(?:<br>|$)` (without MULTILINE, `$` holds at the end
of the string or just before a final newline). -/
def natTerm (x : Str) : Bool :=
  (matchCS (strL "<br>") x).isSome || x = [] || x = ['\n']

/-- `re.search(r"Natural\s*Text:\s*(.+?)(?:<br>|$)", v, re.IGNORECASE)`. -/
def natSearchGo : Str → Option Str
  | [] => none
  | c :: cs =>
    match matchCI (strL "natural") (c :: cs) with
    | some r1 =>
      (match matchCI (strL "text:") (r1.dropWhile isWs) with
       | some r3 =>
         (match lazyCapBack natTerm 0 (r3.takeWhile isWs).reverse [] (r3.dropWhile isWs) with
          | some (cap, _) => some cap
          | none => natSearchGo cs)
       | none => natSearchGo cs)
    | none => natSearchGo cs

/-- One key/value step of `normalize_metadata`. -/
def normMetaStep (acc : Dict) (k v : Str) : Dict :=
  let kc := strip_bold k
  let vc := strip_bold v
  let lk := pyStrip (toLowerL kc)
  if containsSub (strL "full court") lk then dictSet acc (strL "court") vc
  else if lk = strL "presiding judges" ∨ containsSub (strL "presiding") lk then
    dictSet acc (strL "judge") vc
  else if containsSub (strL "case number") lk ∨ containsSub (strL "citation") lk then
    dictSet acc (strL "case_number") vc
  else if containsSub (strL "parties") lk then dictSet acc (strL "parties") vc
  else if containsSub (strL "date") lk then
    (if containsSub (strL "iso") lk ∧ containsSub (strL "natural") lk then
      match parenMatch vc with
      | some (a, b) =>
        dictSet (dictSet acc (strL "date_iso") (pyStrip a)) (strL "date_natural") (pyStrip b)
      | none =>
        (match plusMatch vc with
         | some (a, b) =>
           dictSet (dictSet acc (strL "date_iso") (pyStrip a)) (strL "date_natural") (pyStrip b)
         | none => dictSet acc (strL "date_natural") vc)
    else if containsSub (strL "natural") lk then dictSet acc (strL "date_natural") vc
    else if containsSub (strL "iso") lk then dictSet acc (strL "date_iso") vc
    else
      let isoM := isoSearchGo vc
      let natM := natSearchGo vc
      let parenM := parenMatch vc
      let acc1 := match isoM with
        | some a => dictSet acc (strL "date_iso") (pyStrip a)
        | none => acc
      match natM with
      | some b => dictSet acc1 (strL "date_natural") (pyStrip b)
      | none =>
        (match parenM with
         | some (a, b) =>
           dictSet (dictSet acc1 (strL "date_iso") (pyStrip a)) (strL "date_natural") (pyStrip b)
         | none =>
           match isoM with
           | some _ => acc1
           | none => dictSet acc1 (strL "date_natural") vc))
  else acc

/-- `normalize_metadata` from src/main.py. -/
def normalize_metadata (raw : Dict) : Dict :=
  raw.foldl (fun acc p => normMetaStep acc p.1 p.2) []

-- ======================================================================
-- Fallback metadata extractor: src/main.py,
-- fallback_metadata_from_content (571-618)
-- ======================================================================

/-- Terminator alternative `\s+(?:on|in|at)\s+\d` of the court pattern. -/
def courtTermA (x : Str) : Bool :=
  !(x.takeWhile isWs).isEmpty &&
    (let y := x.dropWhile isWs
     let tryWord := fun (wd : Str) =>
       match matchCI wd y with
       | some z =>
         !(z.takeWhile isWs).isEmpty &&
           (match z.dropWhile isWs with
            | d :: _ => isDigitC d
            | [] => false)
       | none => false
     tryWord (strL "on") || tryWord (strL "in") || tryWord (strL "at"))

/-- Terminator alternative `\.\s` of the court pattern. -/
def courtTermB : Str → Bool
  | '.' :: c :: _ => isWs c
  | _ => false

def courtTerm (x : Str) : Bool := courtTermA x || courtTermB x

/-- `re.search(r"(?:heard by the|before the|in the court of|presided over by)
\s+(.+?)(?:\s+(?:on|in|at)\s+\d|\.\s)", s, re.IGNORECASE)`. -/
def court_search : Str → Option Str
  | [] => none
  | c :: cs =>
    let s := c :: cs
    let attempt :=
      (matchCI (strL "heard by the") s).orElse (fun _ =>
        (matchCI (strL "before the") s).orElse (fun _ =>
          (matchCI (strL "in the court of") s).orElse (fun _ =>
            matchCI (strL "presided over by") s)))
    match attempt with
    | some r =>
      let w := r.takeWhile isWs
      if w = [] then court_search cs
      else
        (match lazyCapBack courtTerm 1 w.reverse [] (r.dropWhile isWs) with
         | some (cap, _) => some cap
         | none => court_search cs)
    | none => court_search cs

/-- Alternative `S\.?C\.?` of the case-number pattern (case-insensitive,
greedy optional dots). -/
def sOptC : Str → Option Str
  | c :: r =>
    if lowerChar c = 's' then
      let r1 := match r with | '.' :: rr => rr | _ => r
      match r1 with
      | c2 :: r2 =>
        if lowerChar c2 = 'c' then some (match r2 with | '.' :: rr => rr | _ => r2)
        else none
      | [] => none
    else none
  | [] => none

/-- Alternative `Crl\.?M\.?A` of the case-number pattern. -/
def crlMA (x : Str) : Option Str := do
  let r1 ← matchCI (strL "crl") x
  let r2 := match r1 with | '.' :: rr => rr | _ => r1
  let r3 ← matchCI (strL "m") r2
  let r4 := match r3 with | '.' :: rr => rr | _ => r3
  matchCI (strL "a") r4

/-- Tail `[\s.]*No\.?\s*[\d/]+\s*(?:of\s*\d{4})?` of the case-number
pattern; returns the rest after the match. -/
def caseTail (p2 : Str) : Option Str :=
  let p3 := p2.dropWhile (fun c => isWs c || c = '.')
  match matchCI (strL "no") p3 with
  | none => none
  | some p4 =>
    let p5 := match p4 with | '.' :: rr => rr | _ => p4
    let p6 := p5.dropWhile isWs
    let ds := p6.takeWhile (fun c => isDigitC c || c = '/')
    if ds = [] then none
    else
      let p7 := p6.drop ds.length
      let p8 := p7.dropWhile isWs
      match matchCI (strL "of") p8 with
      | some p9 =>
        let p10 := p9.dropWhile isWs
        (match p10 with
         | a :: b :: c :: d :: rest =>
           if isDigitC a ∧ isDigitC b ∧ isDigitC c ∧ isDigitC d then some rest else some p8
         | _ => some p8)
      | none => some p8

/-- One anchored attempt of the case-number pattern; returns the rest after
the whole match.  The optional `Spl\.` and the abbreviation alternatives are
tried in regex order, each continued through `caseTail`. -/
def caseAttempt (x : Str) : Option Str :=
  let alts := fun (p : Str) =>
    ((sOptC p).bind caseTail).orElse (fun _ =>
      ((matchCI (strL "sc") p).bind caseTail).orElse (fun _ =>
        ((matchCI (strL "cr") p).bind caseTail).orElse (fun _ =>
          ((matchCI (strL "cc") p).bind caseTail).orElse (fun _ =>
            (crlMA p).bind caseTail))))
  match matchCI (strL "spl.") x with
  | some p1 =>
    (match alts p1 with
     | some rest => some rest
     | none => alts x)
  | none => alts x

/-- `re.search` for the case-number pattern
`((?:Spl\.)?(?:S\.?C\.?|SC|Cr|CC|Crl\.?M\.?A)[\s.]*No\.?\s*[\d/]+\s*
(?:of\s*\d{4})?)` (case-insensitive); the capture is the whole match. -/
def case_search : Str → Option Str
  | [] => none
  | c :: cs =>
    match caseAttempt (c :: cs) with
    | some rest => some ((c :: cs).take ((c :: cs).length - rest.length))
    | none => case_search cs

/-- Terminator `(?:,|\.\s|\s+a\s+\d)` of the parties pattern. -/
def partiesTerm : Str → Bool
  | ',' :: _ => true
  | '.' :: c :: _ => isWs c
  | x =>
    !(x.takeWhile isWs).isEmpty &&
      (match x.dropWhile isWs with
       | 'a' :: r =>
         !(r.takeWhile isWs).isEmpty &&
           (match r.dropWhile isWs with
            | d :: _ => isDigitC d
            | [] => false)
       | _ => false)

/-- Character class `[a-zA-Z\s.]` of the parties second capture. -/
def g2Class (c : Char) : Bool := isAlphaC c || isWs c || c = '.'

/-- Lazy second capture `([A-Z][a-zA-Z\s.]+?)` with the parties
terminator. -/
def g2Go : Str → Str → Option Str
  | _, [] => none
  | acc, c :: cs =>
    if g2Class c then
      (if partiesTerm cs then some ((c :: acc).reverse) else g2Go (c :: acc) cs)
    else none

def g2Cap : Str → Option Str
  | c :: cs => if 'A' ≤ c ∧ c ≤ 'Z' then g2Go [c] cs else none
  | [] => none

/-- Candidate start positions for the parties second capture, in backtracking
order: with the optional `the\s+accused,?\s*(?:identified as\s+)?` group
(first with, then without its inner option), then without the group. -/
def accusedVariants (y : Str) : List Str :=
  let withAcc : Option (List Str) :=
    match matchCS (strL "the") y with
    | some r1 =>
      if r1.takeWhile isWs = [] then none
      else
        (match matchCS (strL "accused") (r1.dropWhile isWs) with
         | some r2 =>
           let r3 := match r2 with | ',' :: rr => rr | _ => r2
           let r4 := r3.dropWhile isWs
           (match matchCS (strL "identified as") r4 with
            | some r5 =>
              if r5.takeWhile isWs = [] then some [r4]
              else some [r5.dropWhile isWs, r4]
            | none => some [r4])
         | none => none)
    | none => none
  (withAcc.getD []) ++ [y]

/-- One anchored attempt of the parties pattern
`(State\s+of\s+\w+)\s+(?:against|vs\.?|versus)\s+(?:the\s+accused,?\s*
(?:identified as\s+)?)?([A-Z][a-zA-Z\s.]+?)(?:,|\.\s|\s+a\s+\d)`
(case-sensitive); returns the two captures. -/
def partiesAttempt (x : Str) : Option (Str × Str) := do
  let r1 ← matchCS (strL "State") x
  if r1.takeWhile isWs = [] then none
  else do
    let r3 ← matchCS (strL "of") (r1.dropWhile isWs)
    if r3.takeWhile isWs = [] then none
    else
      let r4 := r3.dropWhile isWs
      let wrd := r4.takeWhile isWordC
      if wrd = [] then none
      else
        let r5 := r4.drop wrd.length
        let g1 := x.take (x.length - r5.length)
        if r5.takeWhile isWs = [] then none
        else
          let r6 := r5.dropWhile isWs
          let tryConn := fun (r7 : Str) =>
            if r7.takeWhile isWs = [] then none
            else
              (accusedVariants (r7.dropWhile isWs)).foldr
                (fun z acc =>
                  match g2Cap z with
                  | some g2 => some g2
                  | none => acc)
                none
          let g2opt :=
            ((matchCS (strL "against") r6).bind tryConn).orElse (fun _ =>
              ((matchCS (strL "vs.") r6).bind tryConn).orElse (fun _ =>
                ((matchCS (strL "vs") r6).bind tryConn).orElse (fun _ =>
                  (matchCS (strL "versus") r6).bind tryConn)))
          g2opt.map (fun g2 => (g1, g2))

def parties_search : Str → Option (Str × Str)
  | [] => none
  | c :: cs =>
    match partiesAttempt (c :: cs) with
    | some r => some r
    | none => parties_search cs

/-- `re.search(r"\*\*([^*]+)\*\*.*?Judgment", timeline, re.IGNORECASE)`:
first bold token whose line later contains "Judgment". -/
def judgment_search : Str → Option Str
  | [] => none
  | c :: cs =>
    match matchCS (strL "**") (c :: cs) with
    | some r =>
      let inner := r.takeWhile (· ≠ '*')
      if inner = [] then judgment_search cs
      else
        (match matchCS (strL "**") (r.drop inner.length) with
         | some r2 =>
           if containsSub (strL "judgment") (toLowerL (r2.takeWhile (· ≠ '\n'))) then
             some inner
           else judgment_search cs
         | none => judgment_search cs)
    | none => judgment_search cs

/-- `fallback_metadata_from_content` from src/main.py. -/
def fallback_metadata_from_content (legal_summary timeline_content : Str) : Dict :=
  if legal_summary = [] then []
  else
    let m1 := match court_search legal_summary with
      | some cap => dictSet [] (strL "court") (rstripCommaDot (pyStrip cap))
      | none => []
    let m2 := match case_search legal_summary with
      | some cap => dictSet m1 (strL "case_number") (pyStrip cap)
      | none => m1
    let m3 := if timeline_content ≠ [] then
        match judgment_search timeline_content with
        | some cap => dictSet m2 (strL "date_natural") (pyStrip cap)
        | none => m2
      else m2
    match parties_search legal_summary with
    | some (g1, g2) =>
      dictSet m3 (strL "parties") (pyStrip g1 ++ strL " vs " ++ pyStrip g2)
    | none => m3

-- ======================================================================
-- JSON analysis loader: src/main.py, load_json_analyses (689-789)
-- ======================================================================

/-- A parsed section object of a JSON export: its optional "content" string
and optional "severity_score" integer. -/
structure SectionData where
  content : Option Str
  severity_score : Option Nat
deriving DecidableEq, Repr

/-- A value in the "sections" mapping: a JSON object or anything else
(the source guards every access with `isinstance(…, dict)`). -/
inductive SectionVal where
  | dict (d : SectionData)
  | nondict
deriving DecidableEq, Repr

/-- A successfully json-parsed analysis export
`{file_name, processed_on, sections}`. -/
structure AnalysisJson where
  file_name : Option Str
  processed_on : Option Str
  sections : List (Str × SectionVal)
deriving DecidableEq, Repr

/-- `sections.get(title)` (no default). -/
def sectionsGet (secs : List (Str × SectionVal)) (title : Str) : Option SectionVal :=
  match secs.find? (fun p => p.1 = title) with
  | some p => some p.2
  | none => none

/-- `sections.get(title, {})`: absent sections default to an empty dict. -/
def sectionsGetD (secs : List (Str × SectionVal)) (title : Str) : SectionVal :=
  (sectionsGet secs title).getD (.dict ⟨none, none⟩)

/-- `sec.get("content", "") if isinstance(sec, dict) else ""`. -/
def secContent : SectionVal → Str
  | .dict d => d.content.getD []
  | .nondict => []

/-- `os.path.splitext(name)[0]`: cut at the last dot, unless everything
before that dot is dots. -/
def splitextStem (name : Str) : Str :=
  let extRev := name.reverse.takeWhile (· ≠ '.')
  if extRev.length = name.length then name
  else
    let stem := name.take (name.length - extRev.length - 1)
    if stem.all (· = '.') then name else stem

/-- The list-view summary record assembled per document. -/
structure SummaryRec where
  slug : Str
  filename : Str
  processed_on : Str
  outcome : Str
  court : Str
  judge : Str
  date : Str
  case_number : Str
  parties : Str
  severity_score : Option Nat
  summary_snippet : Str
  source : Str
deriving DecidableEq, Repr

/-- The per-file body of the `load_json_analyses` loop, for a file whose
JSON parsed successfully. -/
def summarizeJson (source_label slug_prefix fname : Str) (data : AnalysisJson) :
    SummaryRec :=
  let stem := splitextStem fname
  let slug := slug_prefix ++ strL "_" ++ stem
  let file_name := data.file_name.getD fname
  let processed_on := data.processed_on.getD []
  let secs := data.sections
  let legal_sec := (sectionsGet secs (strL "Comprehensive Legal Summary")).getD
    (sectionsGetD secs (strL "Judgment at a Glance"))
  let legal_summary := secContent legal_sec
  let outcome := extract_outcome_from_filename file_name legal_summary
  let meta_content := secContent (sectionsGetD secs (strL "Metadata Extraction"))
  let meta_rows := parse_markdown_table meta_content
  let meta_raw := meta_rows.headD []
  let meta0 := normalize_metadata meta_raw
  let meta := if meta0 = [] then
      fallback_metadata_from_content legal_summary
        (secContent (sectionsGetD secs (strL "Chronological Event Timeline")))
    else meta0
  let severity := match sectionsGetD secs (strL "Investigation Quality Audit") with
    | .dict d => extractSeverityContent d.severity_score (d.content.getD [])
    | .nondict => none
  let summary_snippet := if 200 < legal_summary.length then
      legal_summary.take 200 ++ strL "..."
    else legal_summary
  { slug := slug
    filename := file_name
    processed_on := processed_on
    outcome := outcome
    court := dictGetD meta (strL "court") []
    judge := dictGetD meta (strL "judge") []
    date := dictGetD meta (strL "date_natural") (dictGetD meta (strL "date_iso") [])
    case_number := dictGetD meta (strL "case_number") []
    parties := dictGetD meta (strL "parties") []
    severity_score := severity
    summary_snippet := summary_snippet
    source := source_label }

/-- `load_json_analyses` from src/main.py over the sorted directory listing:
each entry is a file name together with the result of opening and
json-parsing it (`none` = unreadable or malformed, the `except: continue`
path). -/
def load_json_analyses (source_label slug_prefix : Str) :
    List (Str × Option AnalysisJson) → List SummaryRec
  | [] => []
  | (_, none) :: rest => load_json_analyses source_label slug_prefix rest
  | (fname, some data) :: rest =>
    summarizeJson source_label slug_prefix fname data ::
      load_json_analyses source_label slug_prefix rest

-- ======================================================================
-- Detail lookup slug resolution: src/main.py, load_analysis_detail
-- (1177-1196)
-- ======================================================================

/-- The backing file a detail slug resolves to: a JSON file in the NPA
directory, a JSON file in the standard directory, or a markdown file in the
standard directory. -/
inductive BackingFile where
  | npaFile (name : Str)
  | stdFile (name : Str)
  | mdFile (name : Str)
deriving DecidableEq, Repr

/-- The dispatch of `load_analysis_detail`: "npa_"-prefixed slugs resolve to
`<stem>.json` in the NPA directory, "std_"-prefixed slugs to `<stem>.json` in
the standard directory (stripping exactly the four-character prefix), and
everything else to `<slug>_analysis.md`. -/
def load_analysis_detail_backing (slug : Str) : BackingFile :=
  if (strL "npa_").isPrefixOf slug then .npaFile (slug.drop 4 ++ strL ".json")
  else if (strL "std_").isPrefixOf slug then .stdFile (slug.drop 4 ++ strL ".json")
  else .mdFile (slug ++ strL "_analysis.md")

-- ======================================================================
-- Claims C8 and C9
-- ======================================================================

/-- C8 counterexample.  The claim says the batch result includes an
error/skip count.  But the batch output of `load_json_analyses` is
*identical* whether or not a malformed file was present — here a two-file
directory with one malformed file yields exactly the output of the one-file
directory — so no error or skip count is part of (or recoverable from) the
result handed to callers. -/
theorem C8_counterexample :
    load_json_analyses (strL "Standard") (strL "std")
        [(strL "ACQUITTED_1.json", some ⟨none, none, []⟩), (strL "bad.json", none)] =
      load_json_analyses (strL "Standard") (strL "std")
        [(strL "ACQUITTED_1.json", some ⟨none, none, []⟩)] ∧
    (load_json_analyses (strL "Standard") (strL "std")
        [(strL "ACQUITTED_1.json", some ⟨none, none, []⟩), (strL "bad.json", none)]).length
      = 1 := by
  constructor
  · rfl
  · rfl

/-- C8 (amended): unreadable or malformed documents are skipped without
aborting the batch — the loader is total and simply omits them — and the
result carries no error or skip count: inserting a malformed file anywhere
into the listing leaves the batch output unchanged, so callers receive only
the partial results. -/
theorem C8_malformed_skipped_uncounted (source_label slug_prefix : Str)
    (pre post : List (Str × Option AnalysisJson)) (badName : Str) :
    load_json_analyses source_label slug_prefix (pre ++ (badName, none) :: post) =
      load_json_analyses source_label slug_prefix (pre ++ post) := by
  induction pre with
  | nil => rfl
  | cons p rest ih =>
    obtain ⟨fn, od⟩ := p
    cases od with
    | none => simpa [load_json_analyses] using ih
    | some d => simpa [load_json_analyses] using ih

/-- C9: slug "npa_12" resolves to "12.json" in the NPA directory and slug
"std_ACQUITTED_x" to "ACQUITTED_x.json" in the standard directory (exactly
the matching four-character prefix is stripped), and no slug carrying either
prefix ever resolves to a markdown file. -/
theorem C9_slug_resolution :
    load_analysis_detail_backing (strL "npa_12") = .npaFile (strL "12.json") ∧
    load_analysis_detail_backing (strL "std_ACQUITTED_x") =
      .stdFile (strL "ACQUITTED_x.json") ∧
    (∀ slug : Str,
      ((strL "npa_").isPrefixOf slug || (strL "std_").isPrefixOf slug) = true →
      ∀ n : Str, load_analysis_detail_backing slug ≠ .mdFile n) := by
  refine ⟨by decide, by decide, ?_⟩
  intro slug h n
  unfold load_analysis_detail_backing
  rw [Bool.or_eq_true] at h
  rcases h with h1 | h1
  · rw [if_pos h1]
    simp
  · by_cases h2 : (strL "npa_").isPrefixOf slug = true
    · rw [if_pos h2]
      simp
    · rw [if_neg h2, if_pos h1]
      simp

/-- C9 witness: a "npa_"-prefixed slug is never resolved against the
markdown file of the same stem. -/
theorem C9_witness :
    load_analysis_detail_backing (strL "npa_12") ≠
      .mdFile (strL "npa_12_analysis.md") :=
  C9_slug_resolution.2.2 (strL "npa_12") (by decide) (strL "npa_12_analysis.md")
